import Mathlib

/-!
Verification of the terrier plan-node layer: the `DropNamespacePlanNode` and
`AnalyzePlanNode` variants of `AbstractPlanNode`, their builders, getters,
structural equality, hashing, and JSON (de)serialization.

The builders, getters and `GetPlanNodeType` are embedded directly from
`src/include/planner/plannodes/drop_namespace_plan_node.h` and
`src/include/planner/plannodes/analyze_plan_node.h`.  The bodies of `Hash`,
`operator==`, `ToJson` and `FromJson`, together with the `AbstractPlanNode`
base class and the catalog OID definitions, live in translation units that are
not part of this repository snapshot; those are modelled from the spec, each
with a doc comment saying so.
-/

namespace Terrier

/-- Opaque strongly-typed database OID (`catalog::db_oid_t`, a strong typedef
over `uint32_t`).  A distinct structure per identifier kind keeps the kinds
non-interchangeable, as in the source. -/
structure db_oid_t where
  val : Nat
deriving DecidableEq

/-- Opaque strongly-typed namespace OID (`catalog::namespace_oid_t`). -/
structure namespace_oid_t where
  val : Nat
deriving DecidableEq

/-- Opaque strongly-typed table OID (`catalog::table_oid_t`). -/
structure table_oid_t where
  val : Nat
deriving DecidableEq

/-- Opaque strongly-typed column OID (`catalog::col_oid_t`). -/
structure col_oid_t where
  val : Nat
deriving DecidableEq

/-- Modelled from the spec: the output-schema descriptor (`OutputSchema`) is an
external collaborator out of scope of this layer; the plan node only stores it
optionally and compares/hashes it by value.  It is abstracted here as an
opaque value with decidable equality. -/
structure OutputSchema where
  descriptor : Nat
deriving DecidableEq

/-- The plan-node type tag (`PlanNodeType`): one fixed enumerated value per
concrete variant.  The two variants present in the repository snapshot. -/
inductive PlanNodeType where
  | DROP_NAMESPACE
  | ANALYZE
deriving DecidableEq

/-- The plan-node tree.  A closed tagged-variant rendering of the
`AbstractPlanNode` hierarchy restricted to the two variants in the snapshot:
each constructor carries the inherited base state (`children_`,
`output_schema_`) plus its variant-specific fields. -/
inductive PlanNode where
  | dropNamespace (children : List PlanNode) (output_schema : Option OutputSchema)
      (namespace_oid : namespace_oid_t)
  | analyze (children : List PlanNode) (output_schema : Option OutputSchema)
      (database_oid : db_oid_t) (namespace_oid : namespace_oid_t)
      (table_oid : table_oid_t) (column_oids : List col_oid_t)

/-- Source `GetPlanNodeType`: the fixed variant discriminator, a constant of the
variant (`PlanNodeType::DROP_NAMESPACE` resp. `PlanNodeType::ANALYZE`). -/
def PlanNode.GetPlanNodeType : PlanNode → PlanNodeType
  | .dropNamespace _ _ _ => .DROP_NAMESPACE
  | .analyze _ _ _ _ _ _ => .ANALYZE

/-- The inherited `children` sequence of the abstract base. -/
def PlanNode.GetChildren : PlanNode → List PlanNode
  | .dropNamespace cs _ _ => cs
  | .analyze cs _ _ _ _ _ => cs

/-- The inherited optional `output_schema` of the abstract base. -/
def PlanNode.GetOutputSchema : PlanNode → Option OutputSchema
  | .dropNamespace _ s _ => s
  | .analyze _ s _ _ _ _ => s

/-- Source `GetNamespaceOid`: both variants store a `namespace_oid_`. -/
def PlanNode.GetNamespaceOid : PlanNode → namespace_oid_t
  | .dropNamespace _ _ ns => ns
  | .analyze _ _ _ ns _ _ => ns

/-- Source `AnalyzePlanNode::GetDatabaseOid` (only the analyze variant has this
getter in the source; on the other variant it is not callable, rendered here
by a default). -/
def PlanNode.GetDatabaseOid : PlanNode → db_oid_t
  | .analyze _ _ d _ _ _ => d
  | _ => ⟨0⟩

/-- Source `AnalyzePlanNode::GetTableOid`. -/
def PlanNode.GetTableOid : PlanNode → table_oid_t
  | .analyze _ _ _ _ t _ => t
  | _ => ⟨0⟩

/-- Source `AnalyzePlanNode::GetColumnOids`. -/
def PlanNode.GetColumnOids : PlanNode → List col_oid_t
  | .analyze _ _ _ _ _ cols => cols
  | _ => []

/-- Source `DropNamespacePlanNode::Builder`: accumulates the inherited base-builder
state (`children_`, `output_schema_`, modelled from the spec since
`abstract_plan_node.h` is not in the snapshot) plus `namespace_oid_`.  The
C++ builder default-constructs its fields; the OID's underlying integer is
rendered as 0. -/
structure DropNamespaceBuilder where
  children_ : List PlanNode := []
  output_schema_ : Option OutputSchema := none
  namespace_oid_ : namespace_oid_t := ⟨0⟩

/-- Source `DropNamespacePlanNode::Builder::SetNamespaceOid`: stores the OID and
returns the builder (fluent style). -/
def DropNamespaceBuilder.SetNamespaceOid (b : DropNamespaceBuilder)
    (namespace_oid : namespace_oid_t) : DropNamespaceBuilder :=
  { b with namespace_oid_ := namespace_oid }

/-- Modelled from the spec: `AbstractPlanNode::Builder::AddChild` appends a
child to the accumulated children sequence (drop-namespace builder). -/
def DropNamespaceBuilder.AddChild (b : DropNamespaceBuilder)
    (child : PlanNode) : DropNamespaceBuilder :=
  { b with children_ := b.children_ ++ [child] }

/-- Modelled from the spec: `AbstractPlanNode::Builder::SetOutputSchema`
(drop-namespace builder). -/
def DropNamespaceBuilder.SetOutputSchema (b : DropNamespaceBuilder)
    (schema : OutputSchema) : DropNamespaceBuilder :=
  { b with output_schema_ := some schema }

/-- Source `DropNamespacePlanNode::Builder::Build`: constructs the node from exactly
the accumulated state; no validation is performed. -/
def DropNamespaceBuilder.Build (b : DropNamespaceBuilder) : PlanNode :=
  .dropNamespace b.children_ b.output_schema_ b.namespace_oid_

/-- Source `AnalyzePlanNode::Builder`: base-builder state plus `database_oid_`,
`namespace_oid_`, `table_oid_`, `column_oids_`. -/
structure AnalyzeBuilder where
  children_ : List PlanNode := []
  output_schema_ : Option OutputSchema := none
  database_oid_ : db_oid_t := ⟨0⟩
  namespace_oid_ : namespace_oid_t := ⟨0⟩
  table_oid_ : table_oid_t := ⟨0⟩
  column_oids_ : List col_oid_t := []

/-- Source `AnalyzePlanNode::Builder::SetDatabaseOid`. -/
def AnalyzeBuilder.SetDatabaseOid (b : AnalyzeBuilder)
    (database_oid : db_oid_t) : AnalyzeBuilder :=
  { b with database_oid_ := database_oid }

/-- Source `AnalyzePlanNode::Builder::SetNamespaceOid`. -/
def AnalyzeBuilder.SetNamespaceOid (b : AnalyzeBuilder)
    (namespace_oid : namespace_oid_t) : AnalyzeBuilder :=
  { b with namespace_oid_ := namespace_oid }

/-- Source `AnalyzePlanNode::Builder::SetTableOid`. -/
def AnalyzeBuilder.SetTableOid (b : AnalyzeBuilder)
    (table_oid : table_oid_t) : AnalyzeBuilder :=
  { b with table_oid_ := table_oid }

/-- Source `AnalyzePlanNode::Builder::SetColumnOIDs`: takes ownership of the caller's
sequence (a move in the source; value passing here). -/
def AnalyzeBuilder.SetColumnOIDs (b : AnalyzeBuilder)
    (column_oids : List col_oid_t) : AnalyzeBuilder :=
  { b with column_oids_ := column_oids }

/-- Modelled from the spec: `AbstractPlanNode::Builder::AddChild` (analyze
builder). -/
def AnalyzeBuilder.AddChild (b : AnalyzeBuilder) (child : PlanNode) :
    AnalyzeBuilder :=
  { b with children_ := b.children_ ++ [child] }

/-- Modelled from the spec: `AbstractPlanNode::Builder::SetOutputSchema`
(analyze builder). -/
def AnalyzeBuilder.SetOutputSchema (b : AnalyzeBuilder)
    (schema : OutputSchema) : AnalyzeBuilder :=
  { b with output_schema_ := some schema }

/-- Source `AnalyzePlanNode::Builder::Build`: constructs the node from exactly the
accumulated state; no validation is performed. -/
def AnalyzeBuilder.Build (b : AnalyzeBuilder) : PlanNode :=
  .analyze b.children_ b.output_schema_ b.database_oid_ b.namespace_oid_
    b.table_oid_ b.column_oids_

/-- The default-constructed node of a variant: the public default constructor
used on the deserialization path (`DropNamespacePlanNode() = default;` and
`AnalyzePlanNode() = default;`).  Fields are default-initialized; OID
underlying integers rendered as 0. -/
def defaultNode : PlanNodeType → PlanNode
  | .DROP_NAMESPACE => .dropNamespace [] none ⟨0⟩
  | .ANALYZE => .analyze [] none ⟨0⟩ ⟨0⟩ ⟨0⟩ []

mutual

/-- Modelled from the spec: `operator==` is deep structural equality — same
variant, same variant-specific fields, same output schema (or both absent),
same number of children, and each child pairwise-equal in order; comparing
across different variants is always false, never an error.  The child check
(count plus in-order pairwise equality) is rendered by the simultaneous list
recursion `PlanNode.eqList`. -/
def PlanNode.eq (a b : PlanNode) : Bool :=
  match a, b with
  | .dropNamespace cs1 s1 ns1, .dropNamespace cs2 s2 ns2 =>
      ns1 == ns2 && s1 == s2 && PlanNode.eqList cs1 cs2
  | .analyze cs1 s1 d1 ns1 t1 o1, .analyze cs2 s2 d2 ns2 t2 o2 =>
      d1 == d2 && ns1 == ns2 && t1 == t2 && o1 == o2 && s1 == s2 &&
        PlanNode.eqList cs1 cs2
  | _, _ => false
termination_by structural a

/-- Pairwise equality of two child sequences: true exactly when they have the
same length and corresponding elements are `PlanNode.eq`. -/
def PlanNode.eqList (xs ys : List PlanNode) : Bool :=
  match xs, ys with
  | [], [] => true
  | x :: xs', y :: ys' => PlanNode.eq x y && PlanNode.eqList xs' ys'
  | _, _ => false
termination_by structural xs

end

/-- A fixed integer code per type tag, standing for the enumerator value of
`PlanNodeType` (the enum definition is outside the snapshot). -/
def tagToNat : PlanNodeType → Nat
  | .DROP_NAMESPACE => 0
  | .ANALYZE => 1

/-- The deserialization registry direction: which variant a tag code denotes. -/
def natToTag : Nat → Option PlanNodeType
  | 0 => some .DROP_NAMESPACE
  | 1 => some .ANALYZE
  | _ => none

/-- Modelled from the spec: `common::HashUtil::CombineHashes` — a deterministic
mixing of two 64-bit hash values (`common::hash_t` is `uint64_t`). -/
def CombineHashes (l r : Nat) : Nat := (l * 1099511628211 + r + 1) % 2 ^ 64

/-- Hash contribution of the optional output schema: the schema's own hash when
present, a fixed sentinel when absent. -/
def schemaHash : Option OutputSchema → Nat
  | none => 0
  | some s => CombineHashes 1 s.descriptor

mutual

/-- Modelled from the spec: `Hash()` returns a deterministic combination of the
variant's type tag, all variant-specific fields, the output schema's hash (if
present), and the hash of every child in order. -/
def PlanNode.Hash (a : PlanNode) : Nat :=
  match a with
  | .dropNamespace cs s ns =>
      PlanNode.hashChildren
        (CombineHashes (CombineHashes (tagToNat .DROP_NAMESPACE) (schemaHash s)) ns.val) cs
  | .analyze cs s d ns t os =>
      PlanNode.hashChildren
        (CombineHashes
          (os.foldl (fun h c => CombineHashes h c.val)
            (CombineHashes (CombineHashes (CombineHashes
              (CombineHashes (tagToNat .ANALYZE) (schemaHash s)) d.val) ns.val) t.val))
          os.length) cs
termination_by structural a

/-- Folds the hash of every child, in order, into the accumulated hash. -/
def PlanNode.hashChildren (h : Nat) (cs : List PlanNode) : Nat :=
  match cs with
  | [] => h
  | c :: rest => PlanNode.hashChildren (CombineHashes h (PlanNode.Hash c)) rest
termination_by structural cs

end

/-- Modelled from the spec: the JSON-like portable tree format (`nlohmann::json`
restricted to the shapes this layer emits): numbers, arrays, and objects as
ordered key/value lists. -/
inductive Json where
  | num (n : Nat)
  | arr (elems : List Json)
  | obj (fields : List (String × Json))

/-- Key lookup in an object's field list (first match). -/
def Json.getField : List (String × Json) → String → Option Json
  | [], _ => none
  | (k, v) :: rest, key => if k = key then some v else Json.getField rest key

/-- Key lookup on a record: `j.at(key)` on objects, absent otherwise. -/
def Json.get : Json → String → Option Json
  | .obj fields, key => Json.getField fields key
  | _, _ => none

/-- The serialized form of the optional output schema: a field when present,
omitted when absent. -/
def schemaField : Option OutputSchema → List (String × Json)
  | none => []
  | some s => [("output_schema", .num s.descriptor)]

mutual

/-- Modelled from the spec: `ToJson()` serializes the type tag, the serialized
form of each child, the output schema (if present), and all variant-specific
fields into a variant-tagged structured record. -/
def PlanNode.ToJson (a : PlanNode) : Json :=
  match a with
  | .dropNamespace cs s ns =>
      .obj ([("type", .num (tagToNat .DROP_NAMESPACE)),
             ("children", .arr (PlanNode.toJsonChildren cs))] ++
            schemaField s ++
            [("namespace_oid", .num ns.val)])
  | .analyze cs s d ns t os =>
      .obj ([("type", .num (tagToNat .ANALYZE)),
             ("children", .arr (PlanNode.toJsonChildren cs))] ++
            schemaField s ++
            [("database_oid", .num d.val),
             ("namespace_oid", .num ns.val),
             ("table_oid", .num t.val),
             ("column_oids", .arr (os.map (fun c => Json.num c.val)))])
termination_by structural a

/-- Serializes each child in order. -/
def PlanNode.toJsonChildren (cs : List PlanNode) : List Json :=
  match cs with
  | [] => []
  | c :: rest => PlanNode.ToJson c :: PlanNode.toJsonChildren rest
termination_by structural cs

end

/-- Decodes a list of serialized column OIDs: every element must be a
number. -/
def decodeColOidList : List Json → Option (List col_oid_t)
  | [] => some []
  | .num n :: rest => (decodeColOidList rest).map (fun l => ⟨n⟩ :: l)
  | _ => none

/-- Decodes a serialized column-OID sequence: must be an array of numbers. -/
def decodeColOids : Json → Option (List col_oid_t)
  | .arr xs => decodeColOidList xs
  | _ => none

/-- Decodes the optional output schema of a record: absent key means no
schema; a present key must be a schema record. -/
def decodeSchema (j : Json) : Option (Option OutputSchema) :=
  match j.get "output_schema" with
  | none => some none
  | some (.num n) => some (some ⟨n⟩)
  | some _ => none

theorem Json.getField_sizeOf_lt {fields : List (String × Json)} {key : String}
    {v : Json} (h : Json.getField fields key = some v) : sizeOf v < sizeOf fields := by
  induction fields with
  | nil => simp [Json.getField] at h
  | cons p rest ih =>
    obtain ⟨k, w⟩ := p
    simp only [Json.getField] at h
    split at h
    · cases h
      simp only [List.cons.sizeOf_spec, Prod.mk.sizeOf_spec]
      omega
    · have := ih h
      simp only [List.cons.sizeOf_spec, Prod.mk.sizeOf_spec]
      omega

theorem Json.get_sizeOf_lt {j : Json} {key : String} {v : Json}
    (h : j.get key = some v) : sizeOf v < sizeOf j := by
  cases j with
  | num n => simp [Json.get] at h
  | arr xs => simp [Json.get] at h
  | obj fields =>
    have := Json.getField_sizeOf_lt (h := h)
    simp only [Json.obj.sizeOf_spec]
    omega

mutual

/-- Modelled from the spec: the deserialization worker shared by `FromJson` and
the tag registry of section 4.4 — reads the record's type tag, dispatches to
the matching variant, reconstructs every child recursively, the optional
output schema, and the variant's required fields; a missing or ill-formed
required field is a hard failure surfaced to the caller, and on failure no
node is produced at all (no partial state). -/
def deserialize (j : Json) : Except String PlanNode :=
  match j.get "type" with
  | some (.num t) =>
    match natToTag t with
    | some tag =>
      match hch : j.get "children" with
      | some (.arr cs) => do
          let children ← deserializeChildren cs
          match decodeSchema j with
          | some schema =>
            match tag with
            | .DROP_NAMESPACE =>
              match j.get "namespace_oid" with
              | some (.num ns) => .ok (.dropNamespace children schema ⟨ns⟩)
              | _ => .error "required field namespace_oid absent"
            | .ANALYZE =>
              match j.get "database_oid", j.get "namespace_oid",
                    j.get "table_oid", j.get "column_oids" with
              | some (.num d), some (.num ns), some (.num tb), some colsJ =>
                match decodeColOids colsJ with
                | some cols => .ok (.analyze children schema ⟨d⟩ ⟨ns⟩ ⟨tb⟩ cols)
                | none => .error "ill-formed column_oids"
              | _, _, _, _ => .error "required field absent"
          | none => .error "ill-formed output_schema"
      | _ => .error "required field children absent"
    | none => .error "unknown plan node type"
  | _ => .error "required field type absent"
termination_by sizeOf j
decreasing_by
  have h1 : sizeOf (Json.arr cs) < sizeOf j := Json.get_sizeOf_lt hch
  simp only [Json.arr.sizeOf_spec] at h1
  omega

/-- Deserializes each child record in order; fails as soon as one child
fails. -/
def deserializeChildren (cs : List Json) : Except String (List PlanNode) :=
  match cs with
  | [] => .ok []
  | c :: rest => do
      let n ← deserialize c
      let ns ← deserializeChildren rest
      .ok (n :: ns)
termination_by sizeOf cs

end

/-- Modelled from the spec: `FromJson` hydrates a default-constructed node of
a known variant from a record; it fails if the record's type tag disagrees
with the node's own variant or if a required field is absent, and on failure
the node is not populated at all (rendered by `Except`: either a fully
reconstructed node or an error, never partial state).  The C++ signature also
returns owned sub-expressions; neither variant here holds any. -/
def PlanNode.FromJson (self : PlanNode) (j : Json) : Except String PlanNode :=
  match j.get "type" with
  | some (.num t) =>
      if t = tagToNat self.GetPlanNodeType then deserialize j
      else .error "plan node type mismatch"
  | _ => .error "required field type absent"

/-- Strong induction over plan-node trees: to prove a property of every node
it suffices to prove it for each variant assuming it for all children. -/
def PlanNode.inductionOn {P : PlanNode → Prop}
    (hdrop : ∀ cs s ns, (∀ c ∈ cs, P c) → P (PlanNode.dropNamespace cs s ns))
    (hana : ∀ cs s d ns t os, (∀ c ∈ cs, P c) → P (PlanNode.analyze cs s d ns t os))
    (a : PlanNode) : P a :=
  match a with
  | .dropNamespace cs s ns =>
      hdrop cs s ns (fun c hc => PlanNode.inductionOn hdrop hana c)
  | .analyze cs s d ns t os =>
      hana cs s d ns t os (fun c hc => PlanNode.inductionOn hdrop hana c)
termination_by sizeOf a
decreasing_by
  all_goals
    have hlt := List.sizeOf_lt_of_mem hc
    simp only [PlanNode.dropNamespace.sizeOf_spec, PlanNode.analyze.sizeOf_spec]
    omega

/-- The required fields of each variant's serialized record. -/
def requiredKeys : PlanNodeType → List String
  | .DROP_NAMESPACE => ["type", "children", "namespace_oid"]
  | .ANALYZE =>
      ["type", "children", "database_oid", "namespace_oid", "table_oid",
       "column_oids"]

/-- The spec scenario node: an AnalyzePlanNode built with database_oid=1,
namespace_oid=2, table_oid=3, column_oids=[10,11]. -/
def analyzeScenario : PlanNode :=
  ((((({} : AnalyzeBuilder).SetDatabaseOid ⟨1⟩).SetNamespaceOid
      ⟨2⟩).SetTableOid ⟨3⟩).SetColumnOIDs [⟨10⟩, ⟨11⟩]).Build

/-- The spec scenario node: an AnalyzePlanNode built with an empty column
list. -/
def analyzeEmptyCols : PlanNode :=
  ((((({} : AnalyzeBuilder).SetDatabaseOid ⟨1⟩).SetNamespaceOid
      ⟨2⟩).SetTableOid ⟨3⟩).SetColumnOIDs []).Build

/-- The variant-specific field comparison each variant's `operator==` performs
after the tag check: the namespace OID for drop-namespace; the database,
namespace and table OIDs and the column sequence for analyze. -/
def variantFieldsEq : PlanNode → PlanNode → Bool
  | .dropNamespace _ _ ns1, .dropNamespace _ _ ns2 => ns1 == ns2
  | .analyze _ _ d1 ns1 t1 o1, .analyze _ _ d2 ns2 t2 o2 =>
      d1 == d2 && ns1 == ns2 && t1 == t2 && o1 == o2
  | _, _ => false

/-- The public observers of a finished node: the type tag, the variant
getters, the children and schema accessors, Hash, operator== against another
node, and ToJson. -/
inductive Observation where
  | getPlanNodeType
  | getDatabaseOid
  | getNamespaceOid
  | getTableOid
  | getColumnOids
  | getChildren
  | getOutputSchema
  | hash
  | eqWith (other : PlanNode)
  | toJson

/-- The value an observer call returns. -/
inductive ObsResult where
  | tagRes (t : PlanNodeType)
  | dbRes (v : db_oid_t)
  | nsRes (v : namespace_oid_t)
  | tableRes (v : table_oid_t)
  | colsRes (v : List col_oid_t)
  | childrenRes (v : List PlanNode)
  | schemaRes (v : Option OutputSchema)
  | hashRes (v : Nat)
  | boolRes (v : Bool)
  | jsonRes (v : Json)

/-- Each observer as a state transformer on the node: it computes its result
and yields the post-call node state.  Every such method of a built node is
const in the source, so the post-call state is the unchanged receiver. -/
def observe : Observation → PlanNode → ObsResult × PlanNode
  | .getPlanNodeType, n => (.tagRes n.GetPlanNodeType, n)
  | .getDatabaseOid, n => (.dbRes n.GetDatabaseOid, n)
  | .getNamespaceOid, n => (.nsRes n.GetNamespaceOid, n)
  | .getTableOid, n => (.tableRes n.GetTableOid, n)
  | .getColumnOids, n => (.colsRes n.GetColumnOids, n)
  | .getChildren, n => (.childrenRes n.GetChildren, n)
  | .getOutputSchema, n => (.schemaRes n.GetOutputSchema, n)
  | .hash, n => (.hashRes n.Hash, n)
  | .eqWith m, n => (.boolRes (PlanNode.eq n m), n)
  | .toJson, n => (.jsonRes n.ToJson, n)

/-- Runs a sequence of observer calls left to right, threading the node state
through every call. -/
def runObservations : List Observation → PlanNode → List ObsResult × PlanNode
  | [], n => ([], n)
  | o :: os, n =>
      ((observe o n).1 :: (runObservations os (observe o n).2).1,
        (runObservations os (observe o n).2).2)

/-- Lemma: `PlanNode.eqList` is exactly: equal lengths plus in-order pairwise
`PlanNode.eq`. -/
theorem eqList_iff_length_zip (xs ys : List PlanNode) :
    PlanNode.eqList xs ys = true ↔
      (xs.length = ys.length ∧ ∀ p ∈ xs.zip ys, PlanNode.eq p.1 p.2 = true) := by
  induction xs generalizing ys with
  | nil =>
    cases ys with
    | nil => simp [PlanNode.eqList]
    | cons y ys' => simp [PlanNode.eqList]
  | cons x xs' ih =>
    cases ys with
    | nil => simp [PlanNode.eqList]
    | cons y ys' =>
      rw [PlanNode.eqList]
      simp only [Bool.and_eq_true, ih ys', List.zip_cons_cons, List.mem_cons,
        List.length_cons]
      constructor
      · rintro ⟨hxy, hlen, hall⟩
        exact ⟨by omega, fun p hp => by
          rcases hp with hp | hp
          · subst hp; exact hxy
          · exact hall p hp⟩
      · rintro ⟨hlen, hall⟩
        exact ⟨hall (x, y) (Or.inl rfl), by omega, fun p hp => hall p (Or.inr hp)⟩

/-- If `PlanNode.eqList` accepts two child sequences they are equal, assuming
the inductive hypothesis for the elements of the first. -/
theorem eqList_eq_of {cs cs2 : List PlanNode}
    (ih : ∀ c ∈ cs, ∀ b, PlanNode.eq c b = true ↔ c = b)
    (h : PlanNode.eqList cs cs2 = true) : cs = cs2 := by
  induction cs generalizing cs2 with
  | nil =>
    cases cs2 with
    | nil => rfl
    | cons y ys => simp [PlanNode.eqList] at h
  | cons x xs ihl =>
    cases cs2 with
    | nil => simp [PlanNode.eqList] at h
    | cons y ys =>
      rw [PlanNode.eqList, Bool.and_eq_true] at h
      have h1 := (ih x (by simp) y).mp h.1
      have h2 := ihl (fun c hc b => ih c (by simp [hc]) b) h.2
      rw [h1, h2]

/-- Lemma: `PlanNode.eqList` is reflexive, assuming the inductive hypothesis for the
elements. -/
theorem eqList_refl_of {cs : List PlanNode}
    (ih : ∀ c ∈ cs, ∀ b, PlanNode.eq c b = true ↔ c = b) :
    PlanNode.eqList cs cs = true := by
  induction cs with
  | nil => rfl
  | cons x xs ihl =>
    rw [PlanNode.eqList, Bool.and_eq_true]
    exact ⟨(ih x (by simp) x).mpr rfl, ihl (fun c hc b => ih c (by simp [hc]) b)⟩

/-- Lemma: `PlanNode.eq` decides propositional equality of plan nodes: the modelled
`operator==` is true exactly on structurally identical trees. -/
theorem PlanNode.eq_iff (a : PlanNode) : ∀ b, PlanNode.eq a b = true ↔ a = b := by
  induction a using PlanNode.inductionOn with
  | hdrop cs s ns ih =>
    intro b
    cases b with
    | dropNamespace cs2 s2 ns2 =>
      rw [PlanNode.eq]
      simp only [Bool.and_eq_true, beq_iff_eq, PlanNode.dropNamespace.injEq]
      constructor
      · rintro ⟨⟨hns, hs⟩, hcs⟩
        exact ⟨eqList_eq_of ih hcs, hs, hns⟩
      · rintro ⟨hcs, hs, hns⟩
        subst hcs; subst hs; subst hns
        exact ⟨⟨rfl, rfl⟩, eqList_refl_of ih⟩
    | analyze cs2 s2 d2 ns2 t2 os2 =>
      simp [PlanNode.eq]
  | hana cs s d ns t os ih =>
    intro b
    cases b with
    | dropNamespace cs2 s2 ns2 =>
      simp [PlanNode.eq]
    | analyze cs2 s2 d2 ns2 t2 os2 =>
      rw [PlanNode.eq]
      simp only [Bool.and_eq_true, beq_iff_eq, PlanNode.analyze.injEq]
      constructor
      · rintro ⟨⟨⟨⟨⟨hd, hns⟩, ht⟩, hos⟩, hs⟩, hcs⟩
        exact ⟨eqList_eq_of ih hcs, hs, hd, hns, ht, hos⟩
      · rintro ⟨hcs, hs, hd, hns, ht, hos⟩
        subst hcs; subst hs; subst hd; subst hns; subst ht; subst hos
        exact ⟨⟨⟨⟨⟨rfl, rfl⟩, rfl⟩, rfl⟩, rfl⟩, eqList_refl_of ih⟩

theorem toJson_drop_get_type (cs s ns) :
    (PlanNode.ToJson (.dropNamespace cs s ns)).get "type" = some (.num 0) := by
  cases s <;> rfl

theorem toJson_drop_get_children (cs s ns) :
    (PlanNode.ToJson (.dropNamespace cs s ns)).get "children" =
      some (.arr (PlanNode.toJsonChildren cs)) := by
  cases s <;> rfl

theorem toJson_drop_get_ns (cs s ns) :
    (PlanNode.ToJson (.dropNamespace cs s ns)).get "namespace_oid" =
      some (.num ns.val) := by
  cases s <;> rfl

theorem toJson_drop_decodeSchema (cs s ns) :
    decodeSchema (PlanNode.ToJson (.dropNamespace cs s ns)) = some s := by
  cases s <;> rfl

theorem toJson_ana_get_type (cs s d ns t os) :
    (PlanNode.ToJson (.analyze cs s d ns t os)).get "type" = some (.num 1) := by
  cases s <;> rfl

theorem toJson_ana_get_children (cs s d ns t os) :
    (PlanNode.ToJson (.analyze cs s d ns t os)).get "children" =
      some (.arr (PlanNode.toJsonChildren cs)) := by
  cases s <;> rfl

theorem toJson_ana_get_db (cs s d ns t os) :
    (PlanNode.ToJson (.analyze cs s d ns t os)).get "database_oid" =
      some (.num d.val) := by
  cases s <;> rfl

theorem toJson_ana_get_ns (cs s d ns t os) :
    (PlanNode.ToJson (.analyze cs s d ns t os)).get "namespace_oid" =
      some (.num ns.val) := by
  cases s <;> rfl

theorem toJson_ana_get_table (cs s d ns t os) :
    (PlanNode.ToJson (.analyze cs s d ns t os)).get "table_oid" =
      some (.num t.val) := by
  cases s <;> rfl

theorem toJson_ana_get_cols (cs s d ns t os) :
    (PlanNode.ToJson (.analyze cs s d ns t os)).get "column_oids" =
      some (.arr (os.map (fun c => Json.num c.val))) := by
  cases s <;> rfl

theorem toJson_ana_decodeSchema (cs s d ns t os) :
    decodeSchema (PlanNode.ToJson (.analyze cs s d ns t os)) = some s := by
  cases s <;> rfl

/-- Decoding a serialized column-OID sequence recovers it exactly. -/
theorem decodeColOids_map (os : List col_oid_t) :
    decodeColOids (.arr (os.map (fun c => Json.num c.val))) = some os := by
  induction os with
  | nil => rfl
  | cons c rest ih =>
    simp only [decodeColOids, List.map_cons, decodeColOidList] at ih ⊢
    rw [ih]
    rfl

/-- Deserializing the serialized children recovers them, given the round-trip
property of each child. -/
theorem deserializeChildren_toJson (cs : List PlanNode)
    (ih : ∀ c ∈ cs, deserialize (PlanNode.ToJson c) = .ok c) :
    deserializeChildren (PlanNode.toJsonChildren cs) = .ok cs := by
  induction cs with
  | nil => rw [PlanNode.toJsonChildren, deserializeChildren]
  | cons c rest ihl =>
    rw [PlanNode.toJsonChildren, deserializeChildren]
    rw [ih c (by simp), ihl (fun x hx => ih x (by simp [hx]))]
    rfl

/-- The serialization round-trip at the level of the deserialization worker:
deserializing any node's record reconstructs that node exactly. -/
theorem deserialize_toJson (a : PlanNode) :
    deserialize (PlanNode.ToJson a) = .ok a := by
  induction a using PlanNode.inductionOn with
  | hdrop cs s ns ih =>
    rw [deserialize]
    simp only [toJson_drop_get_type, toJson_drop_get_ns,
      toJson_drop_decodeSchema, natToTag]
    split
    · rename_i cs1 hch
      rw [toJson_drop_get_children] at hch
      injection hch with h1
      injection h1 with h2
      rw [← h2, deserializeChildren_toJson cs ih]
      rfl
    · rename_i hne
      rw [toJson_drop_get_children] at hne
      exact (hne _ rfl).elim
  | hana cs s d ns t os ih =>
    rw [deserialize]
    simp only [toJson_ana_get_type, toJson_ana_get_db,
      toJson_ana_get_ns, toJson_ana_get_table, toJson_ana_get_cols,
      toJson_ana_decodeSchema, natToTag, decodeColOids_map]
    split
    · rename_i cs1 hch
      rw [toJson_ana_get_children] at hch
      injection hch with h1
      injection h1 with h2
      rw [← h2, deserializeChildren_toJson cs ih]
      rfl
    · rename_i hne
      rw [toJson_ana_get_children] at hne
      exact (hne _ rfl).elim

/-- The default-constructed node of a variant carries that variant's tag. -/
theorem defaultNode_tag (t : PlanNodeType) :
    (defaultNode t).GetPlanNodeType = t := by
  cases t <;> rfl

/-- The serialized record's tag is the node's own tag code. -/
theorem toJson_get_type (a : PlanNode) :
    (PlanNode.ToJson a).get "type" = some (.num (tagToNat a.GetPlanNodeType)) := by
  cases a with
  | dropNamespace cs s ns => exact toJson_drop_get_type cs s ns
  | analyze cs s d ns t os => exact toJson_ana_get_type cs s d ns t os

/-- Lemma: `FromJson` on a default-constructed node of the matching variant inverts
`ToJson` exactly. -/
theorem FromJson_toJson (a : PlanNode) :
    PlanNode.FromJson (defaultNode a.GetPlanNodeType) (PlanNode.ToJson a) =
      .ok a := by
  rw [PlanNode.FromJson, toJson_get_type, defaultNode_tag]
  simp only [if_pos rfl]
  exact deserialize_toJson a

theorem natToTag_inj {t : Nat} {tag : PlanNodeType}
    (h : natToTag t = some tag) : t = tagToNat tag := by
  cases t with
  | zero =>
    simp only [natToTag, Option.some.injEq] at h
    subst h; rfl
  | succ t' =>
    cases t' with
    | zero =>
      simp only [natToTag, Option.some.injEq] at h
      subst h; rfl
    | succ t'' => simp [natToTag] at h

theorem tagToNat_inj {a b : PlanNodeType} (h : tagToNat a = tagToNat b) :
    a = b := by
  cases a <;> cases b <;> simp [tagToNat] at h ⊢

theorem except_bind_ok {α β : Type} (a : α) (f : α → Except String β) :
    ((Except.ok a : Except String α) >>= f) = f a := rfl

theorem except_bind_error {α β : Type} (e : String) (f : α → Except String β) :
    ((Except.error e : Except String α) >>= f) = Except.error e := rfl

/-- If the deserialization worker succeeds, the record's tag is the produced
node's tag and every required field of that variant is present: conversely a
tag mismatch or an absent required field can never deserialize successfully. -/
theorem deserialize_ok_shape {j : Json} {n : PlanNode}
    (h : deserialize j = Except.ok n) :
    j.get "type" = some (.num (tagToNat n.GetPlanNodeType)) ∧
    ∀ k ∈ requiredKeys n.GetPlanNodeType, (j.get k).isSome := by
  rw [deserialize] at h
  split at h
  case _ t htag =>
    split at h
    case _ tag hnat =>
      split at h
      case _ cs1 hch =>
        cases hdc : deserializeChildren cs1 with
        | error e =>
          rw [hdc, except_bind_error] at h
          simp at h
        | ok children =>
          rw [hdc, except_bind_ok] at h
          split at h
          case _ schema hds =>
            split at h
            · split at h
              case _ nsv hns =>
                injection h with h'
                subst h'
                have ht := natToTag_inj hnat
                subst ht
                refine ⟨htag, ?_⟩
                intro k hk
                simp only [PlanNode.GetPlanNodeType, requiredKeys,
                  List.mem_cons, List.not_mem_nil, or_false] at hk
                rcases hk with rfl | rfl | rfl <;>
                  simp [htag, hch, hns]
              case _ => simp at h
            · split at h
              case _ dv nsv tv colsJ hdb hns htb hcols =>
                split at h
                case _ cols hdecode =>
                  injection h with h'
                  subst h'
                  have ht := natToTag_inj hnat
                  subst ht
                  refine ⟨htag, ?_⟩
                  intro k hk
                  simp only [PlanNode.GetPlanNodeType, requiredKeys,
                    List.mem_cons, List.not_mem_nil, or_false] at hk
                  rcases hk with rfl | rfl | rfl | rfl | rfl | rfl <;>
                    simp [htag, hch, hdb, hns, htb, hcols]
                case _ => simp at h
              case _ => simp at h
          case _ => simp at h
      case _ => simp at h
    case _ => simp at h
  case _ => simp at h

/-- C1: serialization round-trip.  For every plan node of either variant,
hydrating a default-constructed node of the same variant from its `ToJson`
record via `FromJson` produces a node `b` with `a == b`; in particular for the
AnalyzePlanNode built with database_oid=1, namespace_oid=2, table_oid=3,
column_oids=[10,11], deserializing into a fresh default-constructed instance
reproduces the original exactly, so its four getters return the identical
values and original == fresh. -/
theorem C1_serialization_round_trip :
    (∀ a : PlanNode, ∃ b,
        PlanNode.FromJson (defaultNode a.GetPlanNodeType) (PlanNode.ToJson a) =
          Except.ok b ∧ PlanNode.eq a b = true) ∧
    (PlanNode.FromJson (defaultNode PlanNodeType.ANALYZE)
        (PlanNode.ToJson analyzeScenario) = Except.ok analyzeScenario ∧
      analyzeScenario.GetDatabaseOid = ⟨1⟩ ∧
      analyzeScenario.GetNamespaceOid = ⟨2⟩ ∧
      analyzeScenario.GetTableOid = ⟨3⟩ ∧
      analyzeScenario.GetColumnOids = [⟨10⟩, ⟨11⟩] ∧
      PlanNode.eq analyzeScenario analyzeScenario = true) := by
  constructor
  · intro a
    exact ⟨a, FromJson_toJson a, (PlanNode.eq_iff a a).mpr rfl⟩
  · exact ⟨FromJson_toJson analyzeScenario, rfl, rfl, rfl, rfl,
      (PlanNode.eq_iff _ _).mpr rfl⟩

/-- C3: hash determinism and consistency.  Evaluating `Hash` twice on the same
node agrees, and structurally equal nodes (`operator==`) hash identically. -/
theorem C3_hash_deterministic_consistent :
    (∀ a : PlanNode, PlanNode.Hash a = PlanNode.Hash a) ∧
    (∀ a b : PlanNode, PlanNode.eq a b = true →
      PlanNode.Hash a = PlanNode.Hash b) :=
  ⟨fun _ => rfl, fun a b h => by rw [(PlanNode.eq_iff a b).mp h]⟩

theorem C3_witness :
    PlanNode.Hash analyzeScenario =
      PlanNode.Hash (PlanNode.analyze [] none ⟨1⟩ ⟨2⟩ ⟨3⟩ [⟨10⟩, ⟨11⟩]) :=
  C3_hash_deterministic_consistent.2 _ _ (by decide)

/-- C5: construction round-trip.  Building after any setter assignments and
immediately reading each getter returns exactly the assigned values; in
particular a DropNamespacePlanNode built with namespace_oid = 7 has
`GetNamespaceOid` = 7 and `GetPlanNodeType` = DROP_NAMESPACE, and an
AnalyzePlanNode's four getters return the values set on its builder with the
column order preserved. -/
theorem C5_construction_round_trip :
    (∀ (b : DropNamespaceBuilder) (v : namespace_oid_t),
      ((b.SetNamespaceOid v).Build).GetNamespaceOid = v ∧
      ((b.SetNamespaceOid v).Build).GetPlanNodeType = .DROP_NAMESPACE) ∧
    (∀ (b : AnalyzeBuilder) (d : db_oid_t) (ns : namespace_oid_t)
        (t : table_oid_t) (os : List col_oid_t),
      (((((b.SetDatabaseOid d).SetNamespaceOid ns).SetTableOid
          t).SetColumnOIDs os).Build).GetDatabaseOid = d ∧
      (((((b.SetDatabaseOid d).SetNamespaceOid ns).SetTableOid
          t).SetColumnOIDs os).Build).GetNamespaceOid = ns ∧
      (((((b.SetDatabaseOid d).SetNamespaceOid ns).SetTableOid
          t).SetColumnOIDs os).Build).GetTableOid = t ∧
      (((((b.SetDatabaseOid d).SetNamespaceOid ns).SetTableOid
          t).SetColumnOIDs os).Build).GetColumnOids = os ∧
      (((((b.SetDatabaseOid d).SetNamespaceOid ns).SetTableOid
          t).SetColumnOIDs os).Build).GetPlanNodeType = .ANALYZE) ∧
    ((({} : DropNamespaceBuilder).SetNamespaceOid ⟨7⟩).Build.GetNamespaceOid =
        ⟨7⟩ ∧
      (({} : DropNamespaceBuilder).SetNamespaceOid
          ⟨7⟩).Build.GetPlanNodeType = .DROP_NAMESPACE) :=
  ⟨fun _ _ => ⟨rfl, rfl⟩, fun _ _ _ _ _ => ⟨rfl, rfl, rfl, rfl, rfl⟩,
    rfl, rfl⟩

/-- C6: empty column list round-trip.  An AnalyzePlanNode built with an empty
column_oids sequence is accepted at this layer; its record carries the
column_oids key as a present, empty array (not an omitted field), and
deserializing the record reproduces the node, whose `GetColumnOids` is equally
empty. -/
theorem C6_empty_columns_round_trip :
    analyzeEmptyCols.GetColumnOids = [] ∧
    (PlanNode.ToJson analyzeEmptyCols).get "column_oids" =
      some (.arr []) ∧
    PlanNode.FromJson (defaultNode PlanNodeType.ANALYZE)
        (PlanNode.ToJson analyzeEmptyCols) = Except.ok analyzeEmptyCols :=
  ⟨rfl, rfl, FromJson_toJson analyzeEmptyCols⟩

/-- C9: `Build()` is total and performs no validation.  For every builder
state of either variant — including the default state with no setter ever
invoked — `Build` returns the node constructed from exactly the builder's
accumulated fields, with no check of unset fields or cross-field
consistency. -/
theorem C9_build_total_no_validation :
    (∀ b : DropNamespaceBuilder,
      b.Build = PlanNode.dropNamespace b.children_ b.output_schema_
        b.namespace_oid_) ∧
    (∀ b : AnalyzeBuilder,
      b.Build = PlanNode.analyze b.children_ b.output_schema_ b.database_oid_
        b.namespace_oid_ b.table_oid_ b.column_oids_) ∧
    ({} : DropNamespaceBuilder).Build = PlanNode.dropNamespace [] none ⟨0⟩ ∧
    ({} : AnalyzeBuilder).Build =
      PlanNode.analyze [] none ⟨0⟩ ⟨0⟩ ⟨0⟩ [] :=
  ⟨fun _ => rfl, fun _ => rfl, rfl, rfl⟩

/-- C10: the type tag is a constant of the variant, independent of field
state: every DropNamespacePlanNode — including a default-constructed one on
the deserialization path — reports DROP_NAMESPACE, and every AnalyzePlanNode
reports ANALYZE. -/
theorem C10_type_tag_constant :
    (∀ (cs : List PlanNode) (s : Option OutputSchema) (ns : namespace_oid_t),
      (PlanNode.dropNamespace cs s ns).GetPlanNodeType = .DROP_NAMESPACE) ∧
    (∀ (cs : List PlanNode) (s : Option OutputSchema) (d : db_oid_t)
        (ns : namespace_oid_t) (t : table_oid_t) (os : List col_oid_t),
      (PlanNode.analyze cs s d ns t os).GetPlanNodeType = .ANALYZE) ∧
    (defaultNode .DROP_NAMESPACE).GetPlanNodeType = .DROP_NAMESPACE ∧
    (defaultNode .ANALYZE).GetPlanNodeType = .ANALYZE :=
  ⟨fun _ _ _ => rfl, fun _ _ _ _ _ _ => rfl, rfl, rfl⟩

/-- C2: equality is deep structural and an equivalence relation.  `a == b`
holds iff same type tag, same variant-specific fields, same output-schema
presence and value, same child count and pairwise-equal children in order; it
is reflexive, symmetric and transitive; and comparing nodes of different
variants returns false rather than erroring. -/
theorem C2_equality_structural_equivalence :
    (∀ a b : PlanNode, PlanNode.eq a b = true ↔
      (a.GetPlanNodeType = b.GetPlanNodeType ∧
        variantFieldsEq a b = true ∧
        a.GetOutputSchema = b.GetOutputSchema ∧
        a.GetChildren.length = b.GetChildren.length ∧
        ∀ p ∈ a.GetChildren.zip b.GetChildren, PlanNode.eq p.1 p.2 = true)) ∧
    (∀ a : PlanNode, PlanNode.eq a a = true) ∧
    (∀ a b : PlanNode, PlanNode.eq a b = PlanNode.eq b a) ∧
    (∀ a b c : PlanNode, PlanNode.eq a b = true → PlanNode.eq b c = true →
      PlanNode.eq a c = true) ∧
    (∀ a b : PlanNode, a.GetPlanNodeType ≠ b.GetPlanNodeType →
      PlanNode.eq a b = false) := by
  refine ⟨?_, ?_, ?_, ?_, ?_⟩
  · intro a b
    cases a with
    | dropNamespace cs1 s1 ns1 =>
      cases b with
      | dropNamespace cs2 s2 ns2 =>
        rw [PlanNode.eq]
        simp only [Bool.and_eq_true, beq_iff_eq, eqList_iff_length_zip,
          variantFieldsEq, PlanNode.GetPlanNodeType, PlanNode.GetOutputSchema,
          PlanNode.GetChildren, true_and]
        tauto
      | analyze cs2 s2 d2 ns2 t2 os2 =>
        simp [PlanNode.eq, variantFieldsEq, PlanNode.GetPlanNodeType]
    | analyze cs1 s1 d1 ns1 t1 os1 =>
      cases b with
      | dropNamespace cs2 s2 ns2 =>
        simp [PlanNode.eq, variantFieldsEq, PlanNode.GetPlanNodeType]
      | analyze cs2 s2 d2 ns2 t2 os2 =>
        rw [PlanNode.eq]
        simp only [Bool.and_eq_true, beq_iff_eq, eqList_iff_length_zip,
          variantFieldsEq, PlanNode.GetPlanNodeType, PlanNode.GetOutputSchema,
          PlanNode.GetChildren, true_and]
        tauto
  · exact fun a => (PlanNode.eq_iff a a).mpr rfl
  · intro a b
    by_cases h : a = b
    · subst h; rfl
    · have h1 : PlanNode.eq a b = false := by
        cases hab : PlanNode.eq a b with
        | false => rfl
        | true => exact absurd ((PlanNode.eq_iff a b).mp hab) h
      have h2 : PlanNode.eq b a = false := by
        cases hba : PlanNode.eq b a with
        | false => rfl
        | true => exact absurd ((PlanNode.eq_iff b a).mp hba).symm h
      rw [h1, h2]
  · intro a b c hab hbc
    exact (PlanNode.eq_iff a c).mpr
      (((PlanNode.eq_iff a b).mp hab).trans ((PlanNode.eq_iff b c).mp hbc))
  · intro a b hne
    cases hab : PlanNode.eq a b with
    | false => rfl
    | true =>
      exact absurd
        (congrArg PlanNode.GetPlanNodeType ((PlanNode.eq_iff a b).mp hab)) hne

theorem C2_witness :
    PlanNode.eq (defaultNode .DROP_NAMESPACE) (defaultNode .ANALYZE) = false :=
  C2_equality_structural_equivalence.2.2.2.2 _ _ (by decide)

/-- C4: deserialization mismatch is a hard, atomic failure.  If the record's
type tag does not match the target node's variant, or a required field of the
variant is absent from the record, `FromJson` fails with an error surfaced to
the caller; the `Except` result carries no node, so no partial state is ever
populated. -/
theorem C4_deserialization_mismatch (self : PlanNode) (j : Json) :
    (j.get "type" ≠ some (.num (tagToNat self.GetPlanNodeType)) ∨
      ∃ k ∈ requiredKeys self.GetPlanNodeType, j.get k = none) →
    ∃ e, PlanNode.FromJson self j = Except.error e := by
  intro hbad
  cases hres : PlanNode.FromJson self j with
  | error e => exact ⟨e, rfl⟩
  | ok n =>
    exfalso
    rw [PlanNode.FromJson] at hres
    split at hres
    case _ t htype =>
      split at hres
      · rename_i ht
        obtain ⟨htag, hkeys⟩ := deserialize_ok_shape hres
        rw [htype] at htag
        injection htag with htag1
        injection htag1 with htag2
        have hsame : n.GetPlanNodeType = self.GetPlanNodeType :=
          tagToNat_inj (htag2.symm.trans ht)
        rcases hbad with hbad | ⟨k, hk, habs⟩
        · exact hbad (by rw [htype, ← ht])
        · have hp := hkeys k (by rw [hsame]; exact hk)
          rw [habs] at hp
          simp at hp
      · simp at hres
    case _ => simp at hres

theorem C4_witness :
    ∃ e, PlanNode.FromJson (defaultNode .DROP_NAMESPACE)
        (PlanNode.ToJson analyzeScenario) = Except.error e :=
  C4_deserialization_mismatch _ _ (Or.inl (by
    rw [show PlanNode.ToJson analyzeScenario =
        PlanNode.ToJson (PlanNode.analyze [] none ⟨1⟩ ⟨2⟩ ⟨3⟩ [⟨10⟩, ⟨11⟩])
      from rfl, toJson_ana_get_type]
    intro h
    injection h with h1
    injection h1 with h2
    simp [tagToNat, defaultNode, PlanNode.GetPlanNodeType] at h2))

/-- C7: post-build immutability.  After any sequence of public observer calls
on a built node the node's state is exactly what it was at construction, and
every observed result is what the observer computes on the pristine node. -/
theorem C7_post_build_immutability (ops : List Observation) (n : PlanNode) :
    (runObservations ops n).2 = n ∧
    (runObservations ops n).1 = ops.map (fun o => (observe o n).1) := by
  induction ops with
  | nil => exact ⟨rfl, rfl⟩
  | cons o os ih =>
    have hs : (observe o n).2 = n := by cases o <;> rfl
    rw [runObservations, hs, List.map_cons]
    exact ⟨ih.2 ▸ ih.1, by rw [ih.2]⟩

/-- C8: builder setters are last-write-wins and frame-preserving: setting the
same field twice keeps the second value, and each setter changes only its own
accumulated field, leaving every other field, the children sequence, and the
output schema unchanged. -/
theorem C8_setters_last_write_wins_frame :
    (∀ (b : DropNamespaceBuilder) (v1 v2 : namespace_oid_t),
      (b.SetNamespaceOid v1).SetNamespaceOid v2 = b.SetNamespaceOid v2) ∧
    (∀ (b : DropNamespaceBuilder) (v : namespace_oid_t),
      (b.SetNamespaceOid v).children_ = b.children_ ∧
      (b.SetNamespaceOid v).output_schema_ = b.output_schema_) ∧
    (∀ (b : AnalyzeBuilder) (v1 v2 : db_oid_t),
      (b.SetDatabaseOid v1).SetDatabaseOid v2 = b.SetDatabaseOid v2) ∧
    (∀ (b : AnalyzeBuilder) (v1 v2 : namespace_oid_t),
      (b.SetNamespaceOid v1).SetNamespaceOid v2 = b.SetNamespaceOid v2) ∧
    (∀ (b : AnalyzeBuilder) (v1 v2 : table_oid_t),
      (b.SetTableOid v1).SetTableOid v2 = b.SetTableOid v2) ∧
    (∀ (b : AnalyzeBuilder) (v1 v2 : List col_oid_t),
      (b.SetColumnOIDs v1).SetColumnOIDs v2 = b.SetColumnOIDs v2) ∧
    (∀ (b : AnalyzeBuilder) (v : db_oid_t),
      (b.SetDatabaseOid v).children_ = b.children_ ∧
      (b.SetDatabaseOid v).output_schema_ = b.output_schema_ ∧
      (b.SetDatabaseOid v).namespace_oid_ = b.namespace_oid_ ∧
      (b.SetDatabaseOid v).table_oid_ = b.table_oid_ ∧
      (b.SetDatabaseOid v).column_oids_ = b.column_oids_) ∧
    (∀ (b : AnalyzeBuilder) (v : namespace_oid_t),
      (b.SetNamespaceOid v).children_ = b.children_ ∧
      (b.SetNamespaceOid v).output_schema_ = b.output_schema_ ∧
      (b.SetNamespaceOid v).database_oid_ = b.database_oid_ ∧
      (b.SetNamespaceOid v).table_oid_ = b.table_oid_ ∧
      (b.SetNamespaceOid v).column_oids_ = b.column_oids_) ∧
    (∀ (b : AnalyzeBuilder) (v : table_oid_t),
      (b.SetTableOid v).children_ = b.children_ ∧
      (b.SetTableOid v).output_schema_ = b.output_schema_ ∧
      (b.SetTableOid v).database_oid_ = b.database_oid_ ∧
      (b.SetTableOid v).namespace_oid_ = b.namespace_oid_ ∧
      (b.SetTableOid v).column_oids_ = b.column_oids_) ∧
    (∀ (b : AnalyzeBuilder) (v : List col_oid_t),
      (b.SetColumnOIDs v).children_ = b.children_ ∧
      (b.SetColumnOIDs v).output_schema_ = b.output_schema_ ∧
      (b.SetColumnOIDs v).database_oid_ = b.database_oid_ ∧
      (b.SetColumnOIDs v).namespace_oid_ = b.namespace_oid_ ∧
      (b.SetColumnOIDs v).table_oid_ = b.table_oid_) :=
  ⟨fun _ _ _ => rfl, fun _ _ => ⟨rfl, rfl⟩, fun _ _ _ => rfl,
   fun _ _ _ => rfl, fun _ _ _ => rfl, fun _ _ _ => rfl,
   fun _ _ => ⟨rfl, rfl, rfl, rfl, rfl⟩,
   fun _ _ => ⟨rfl, rfl, rfl, rfl, rfl⟩,
   fun _ _ => ⟨rfl, rfl, rfl, rfl, rfl⟩,
   fun _ _ => ⟨rfl, rfl, rfl, rfl, rfl⟩⟩

end Terrier
